import Mathlib

/-!
# Verification of the custom training loop notebook

A shallow embedding, in Lean 4, of the computational content of the notebook
`007-READING-tracking-metrics-in-custom-training-loops.ipynb`
(Reuters classification with a GRU model and a hand-written training loop),
together with proofs of the specified properties.

The embedding covers:
* the pad-then-truncate preprocessing step
  (`pad_sequences(..., maxlen=100, truncating='post')`);
* the `Mean` running-average metric accumulator;
* the `AUC` (ROC curve) metric accumulator with its 200 default thresholds
  and trapezoidal interpolation;
* the sparse categorical cross-entropy loss;
* the `grad` training-step function, the SGD-with-Nesterov-momentum
  parameter update, and the epoch loop with its training, validation and
  reporting phases;
* the per-epoch console report lines.
-/

namespace Notebook

/-! ## Preprocessing: `pad_sequences`

The notebook calls
`pad_sequences(data, maxlen=100, truncating='post')`,
with the Keras defaults `padding='pre'` and `value=0`.
Per sequence this: truncates to the first `maxlen` tokens
(`truncating='post'` drops tokens from the end), then pre-pads with the
pad token `0` up to length `maxlen`. -/

/-- One row of `pad_sequences(..., maxlen, truncating='post')` with the
default `padding='pre'` and pad value `0`. -/
def pad_sequences (maxlen : ℕ) (s : List ℕ) : List ℕ :=
  let trunc := s.take maxlen
  List.replicate (maxlen - trunc.length) 0 ++ trunc

/-! ## The `Mean` metric accumulator

`tf.keras.metrics.Mean` keeps a running `total` and `count`; an update with
a batch of values adds the batch sum to `total` and the batch size to
`count`; `result()` is `total / count` (with `0` when `count = 0`, via
`div_no_nan` — which coincides with Lean's division-by-zero convention). -/

/-- State of `tf.keras.metrics.Mean`: running sum and running count. -/
structure Mean (α : Type) where
  total : α
  count : α

namespace Mean

variable {α : Type} [DivisionRing α]

/-- The freshly constructed metric, `tf.keras.metrics.Mean()`. -/
def init : Mean α := ⟨0, 0⟩

/-- Update `update_state` with a single scalar value (as in the training loop,
which feeds one `loss_value` per batch). -/
def updateVal (s : Mean α) (v : α) : Mean α :=
  ⟨s.total + v, s.count + 1⟩

/-- Batch form of `update_state`: adds the batch sum to `total`
and the batch size to `count`. -/
def updateBatch (s : Mean α) (vs : List α) : Mean α :=
  ⟨s.total + vs.sum, s.count + (vs.length : α)⟩

/-- Read `result()`: the running mean `total / count` (`0` when `count = 0`,
matching `div_no_nan`). -/
def result (s : Mean α) : α := s.total / s.count

end Mean

/-! ## The `AUC` metric accumulator

`tf.keras.metrics.AUC(curve='ROC')` with its defaults
(`num_thresholds=200`, `summation_method='interpolation'`).
The metric keeps, for each of 200 thresholds, accumulated counts of true
positives, false positives, true negatives and false negatives over the
flattened label/prediction pairs seen so far.  The thresholds are
`[0 - ε] ++ [(i+1)/199 for i in range(198)] ++ [1 + ε]` with `ε = 1e-7`.
An entry counts as predicted positive at threshold `t` when its prediction
is strictly greater than `t`, and as labelled positive when its label is
nonzero.  `result()` computes recall and false-positive rate per threshold
(with `div_no_nan`, matching division-by-zero-is-zero) and sums the
trapezoids of the ROC curve. -/

/-- Confusion-count state of `tf.keras.metrics.AUC`, indexed by threshold
number `0 ≤ i < numThresholds`. -/
@[ext]
structure AUC (α : Type) where
  true_positives : ℕ → α
  false_positives : ℕ → α
  true_negatives : ℕ → α
  false_negatives : ℕ → α

namespace AUC

/-- Keras default `num_thresholds`. -/
def numThresholds : ℕ := 200

variable {α : Type} [LinearOrderedField α]

/-- Keras `K.epsilon() = 1e-7`. -/
def kEpsilon : α := 1 / 10 ^ 7

/-- The `i`-th threshold:
`[0.0 - K.epsilon()] + [(j+1)/(num_thresholds-1) for j in range(num_thresholds-2)] + [1.0 + K.epsilon()]`. -/
def threshold (i : ℕ) : α :=
  if i = 0 then 0 - kEpsilon
  else if i = numThresholds - 1 then 1 + kEpsilon
  else (i : α) / ((numThresholds : α) - 1)

/-- The freshly constructed metric: all confusion counts zero. -/
def init : AUC α := ⟨fun _ => 0, fun _ => 0, fun _ => 0, fun _ => 0⟩

/-- Accumulate one flattened label/prediction entry into the confusion
counts: at each threshold, the entry is predicted positive when the
prediction exceeds the threshold and labelled positive when the label is
nonzero. -/
def updateEntry (s : AUC α) (y p : α) : AUC α where
  true_positives := fun i =>
    s.true_positives i + if y ≠ 0 ∧ threshold i < p then 1 else 0
  false_positives := fun i =>
    s.false_positives i + if ¬y ≠ 0 ∧ threshold i < p then 1 else 0
  true_negatives := fun i =>
    s.true_negatives i + if ¬y ≠ 0 ∧ ¬threshold i < p then 1 else 0
  false_negatives := fun i =>
    s.false_negatives i + if y ≠ 0 ∧ ¬threshold i < p then 1 else 0

/-- Run `update_state` on a flattened batch of label/prediction pairs. -/
def update (s : AUC α) (pairs : List (α × α)) : AUC α :=
  pairs.foldl (fun t yp => updateEntry t yp.1 yp.2) s

/-- The number of labelled-positive entries in a flattened batch. -/
def posCount (pairs : List (α × α)) : ℕ :=
  pairs.countP fun yp => decide (yp.1 ≠ 0)

/-- The number of labelled-negative entries in a flattened batch. -/
def negCount (pairs : List (α × α)) : ℕ :=
  pairs.countP fun yp => decide (yp.1 = 0)

/-- Read `result()` for `curve='ROC'`, `summation_method='interpolation'`:
the trapezoidal sum of recall against false-positive rate over
consecutive thresholds. -/
def result (s : AUC α) : α :=
  ∑ i ∈ Finset.range (numThresholds - 1),
    (s.false_positives i / (s.false_positives i + s.true_negatives i) -
        s.false_positives (i + 1) /
          (s.false_positives (i + 1) + s.true_negatives (i + 1))) *
      ((s.true_positives i / (s.true_positives i + s.false_negatives i) +
          s.true_positives (i + 1) /
            (s.true_positives (i + 1) + s.false_negatives (i + 1))) / 2)

end AUC

/-! ## The loss: `tf.keras.losses.SparseCategoricalCrossentropy()`

For a batch of integer labels and per-sample probability vectors, the
per-sample loss is minus the natural logarithm of the probability the
model assigns to the true class, and the batch loss is the mean of the
per-sample losses (the default `reduction` averages over the batch). -/

/-- Cross-entropy of one sample: `-log(probs[label])`. -/
noncomputable def scceSample (probs : List ℝ) (label : ℕ) : ℝ :=
  -Real.log (probs.getD label 0)

/-- Batch loss `loss(targets, preds)`: mean per-sample sparse categorical
cross-entropy over the batch. -/
noncomputable def scceLoss (labels : List ℕ) (preds : List (List ℝ)) : ℝ :=
  ((labels.zip preds).map fun lp => scceSample lp.2 lp.1).sum /
    (labels.length : ℝ)

/-- A model output assigning the uniform probability `1/46` to each of the
46 Reuters classes. -/
noncomputable def uniform46 : List ℝ := List.replicate 46 (1 / 46)

/-! ## The custom training loop

The model, loss and automatic differentiation are abstracted: a
`TrainContext` holds the forward function (the model applied to a batch as
a function of the flattened trainable variables), the loss function, the
reverse-mode gradient operator (`tape.gradient`), and the flattening of
`(to_categorical(labels), preds)` into label/prediction pairs for the AUC
metric.  Scalars are a linear ordered field, standing for the exact
arithmetic idealisation of the float computations. -/

/-- The flattened trainable variables of the model, one scalar weight per
index. -/
def Params (α : Type) : Type := ℕ → α

/-- The abstract ingredients of the training loop. -/
structure TrainContext (α I T O : Type) where
  forward : Params α → I → O
  lossFn : T → O → α
  gradient : (Params α → α) → Params α → Params α
  toPairs : T → O → List (α × α)

variable {α I T O : Type} [LinearOrderedField α]

/-- The function `grad(model, inputs, targets, loss)`: run the forward pass under the
gradient tape, compute the loss, and return predictions, loss value and
the gradient of the recorded loss with respect to the trainable
variables. -/
def grad (C : TrainContext α I T O) (θ : Params α) (inputs : I)
    (targets : T) : O × α × Params α :=
  let preds := C.forward θ inputs
  let loss_value := C.lossFn targets preds
  (preds, loss_value,
    C.gradient (fun p => C.lossFn targets (C.forward p inputs)) θ)

/-- Calling `grad` viewed as a transformer of the model's variable store:
the body of `grad` only reads the variables, so the store comes back
unchanged next to the computed triple. -/
def gradS (C : TrainContext α I T O) (θ : Params α) (inputs : I)
    (targets : T) : Params α × (O × α × Params α) :=
  (θ, grad C θ inputs targets)

/-- The `learning_rate=0.005` of the notebook's optimizer. -/
def learning_rate {α : Type} [LinearOrderedField α] : α := 5 / 1000

/-- The `momentum=0.9` of the notebook's optimizer. -/
def momentum {α : Type} [LinearOrderedField α] : α := 9 / 10

/-- State owned by `tf.keras.optimizers.SGD(...)`: the model variables it
updates and its per-variable momentum accumulators (initially zero). -/
structure SGDState (α : Type) where
  params : Params α
  momenta : Params α

/-- One `optimizer.apply_gradients(zip(grads, model.trainable_variables))` call for
`SGD(learning_rate=lr, momentum=mom, nesterov=True)`: per variable,
`v ← mom * v - lr * g` and, with Nesterov, `θ ← θ + mom * v - lr * g`
using the updated `v`. -/
def applyGradients (lr mom : α) (s : SGDState α) (g : Params α) :
    SGDState α :=
  let v : Params α := fun i => mom * s.momenta i - lr * g i
  { params := fun i => s.params i + mom * v i - lr * g i
    momenta := v }

/-- The four metric objects created at the start of each epoch. -/
structure EpochAccs (α : Type) where
  train_epoch_loss_avg : Mean α
  train_epoch_roc_auc : AUC α
  val_epoch_loss_avg : Mean α
  val_epoch_roc_auc : AUC α

/-- Body of the inner training loop: compute `grad`, apply the gradients
through the optimizer, then update the two training metrics. -/
def trainBatchStep (C : TrainContext α I T O)
    (s : SGDState α × EpochAccs α) (batch : I × T) :
    SGDState α × EpochAccs α :=
  let (inputs, labels) := batch
  let (model_preds, loss_value, grads) := grad C s.1.params inputs labels
  let opt := applyGradients learning_rate momentum s.1 grads
  (opt,
   { s.2 with
      train_epoch_loss_avg := s.2.train_epoch_loss_avg.updateVal loss_value
      train_epoch_roc_auc :=
        s.2.train_epoch_roc_auc.update (C.toPairs labels model_preds) })

/-- Body of the validation loop: a forward pass and the two validation
metric updates; no gradient is taken and no parameter is assigned. -/
def valBatchStep (C : TrainContext α I T O)
    (s : SGDState α × EpochAccs α) (batch : I × T) :
    SGDState α × EpochAccs α :=
  let (inputs, labels) := batch
  let model_preds := C.forward s.1.params inputs
  (s.1,
   { s.2 with
      val_epoch_loss_avg :=
        s.2.val_epoch_loss_avg.updateVal (C.lossFn labels model_preds)
      val_epoch_roc_auc :=
        s.2.val_epoch_roc_auc.update (C.toPairs labels model_preds) })

/-- The constant `val_steps = 10`. -/
def val_steps : ℕ := 10

/-- The constant `num_epochs = 5`. -/
def num_epochs : ℕ := 5

/-- The training phase of one epoch:
`for inputs, labels in train_dataset: ...`. -/
def trainPhase (C : TrainContext α I T O)
    (s : SGDState α × EpochAccs α) (batches : List (I × T)) :
    SGDState α × EpochAccs α :=
  batches.foldl (trainBatchStep C) s

/-- The validation phase of one epoch:
`for inputs, labels in val_dataset.take(val_steps): ...`. -/
def valPhase (C : TrainContext α I T O)
    (s : SGDState α × EpochAccs α) (batches : List (I × T)) :
    SGDState α × EpochAccs α :=
  (batches.take val_steps).foldl (valBatchStep C) s

/-- One iteration of the outer epoch loop: create the four metric objects
afresh, run the training phase and then the validation phase, and read the
four `result()` values reported for this epoch. -/
def epochStep (C : TrainContext α I T O)
    (trainBatches valBatches : List (I × T)) (s : SGDState α) :
    SGDState α × (α × α × α × α) :=
  let accs0 : EpochAccs α := ⟨Mean.init, AUC.init, Mean.init, AUC.init⟩
  let s1 := trainPhase C (s, accs0) trainBatches
  let s2 := valPhase C s1 valBatches
  (s2.1,
   (s2.2.train_epoch_loss_avg.result, s2.2.train_epoch_roc_auc.result,
    s2.2.val_epoch_loss_avg.result, s2.2.val_epoch_roc_auc.result))

/-- The outer loop `for epoch in range(n)`: run `n` epochs from optimizer
state `s`, collecting the reported metric quadruple of each epoch. -/
def runEpochs (C : TrainContext α I T O)
    (trainBatches valBatches : List (I × T)) (s : SGDState α) :
    ℕ → SGDState α × List (α × α × α × α)
  | 0 => (s, [])
  | n + 1 =>
    let (s1, r) := epochStep C trainBatches valBatches s
    let (s2, rs) := runEpochs C trainBatches valBatches s1 n
    (s2, r :: rs)

/-! ## End-of-epoch metric reads and the printed report

At the end of each epoch the source reads each metric's `result()` twice:
once when appending to the four result lists and once inside the two
`print` statements. -/

/-- The four per-epoch metric accumulators, as identifiers. -/
inductive MetricId
  | train_epoch_loss_avg
  | train_epoch_roc_auc
  | val_epoch_loss_avg
  | val_epoch_roc_auc
deriving DecidableEq

/-- The sequence of metric-accumulator `result()` calls performed at the
end of every epoch, in source order: the four result-list appends,
then the four reads inside the two `print` statements. -/
def epochEndReads : List MetricId :=
  [.train_epoch_loss_avg, .train_epoch_roc_auc,
   .val_epoch_loss_avg, .val_epoch_roc_auc,
   .train_epoch_loss_avg, .train_epoch_roc_auc,
   .val_epoch_loss_avg, .val_epoch_roc_auc]

/-- Python `"{:03d}".format(n)` for a natural number: decimal digits,
zero-padded on the left to width 3. -/
def fmt03d (n : ℕ) : String :=
  let s := toString n
  (List.replicate (3 - s.length) '0').asString ++ s

/-- Python `"{:.3f}".format(x)` idealised over exact rationals:
fixed-point rendering with three decimal places, rounding to the nearest
thousandth. -/
def fmt3f (q : ℚ) : String :=
  let m : ℤ := round (q * 1000)
  let n : ℕ := m.natAbs
  (if m < 0 then "-" else "") ++ toString (n / 1000) ++ "." ++ fmt03d (n % 1000)

/-- Python `"{:.3%}".format(x)`: the value times 100, rendered with three
decimal places, followed by a percent sign. -/
def fmt3pct (q : ℚ) : String := fmt3f (q * 100) ++ "%"

/-- The per-epoch training line the loop prints:
`"Epoch {:03d}: Training loss: {:.3f}, ROC AUC: {:.3%}"`. -/
def trainingReportLine (epoch : ℕ) (loss auc : ℚ) : String :=
  "Epoch " ++ fmt03d epoch ++ ": Training loss: " ++ fmt3f loss ++
    ", ROC AUC: " ++ fmt3pct auc

/-- The per-epoch validation line the loop prints:
`"              Validation loss: {:.3f}, ROC AUC {:.3%}"`
(fourteen leading spaces; no epoch number, no colon after `ROC AUC`). -/
def validationReportLine (loss auc : ℚ) : String :=
  "              Validation loss: " ++ fmt3f loss ++ ", ROC AUC " ++
    fmt3pct auc

/-- Modelled from the spec: the fixed training-line format
`"Epoch NNN: Training loss: X.XXX, ROC AUC: Y.YYY%"` that the
specification asserts for the per-epoch training report line. -/
def specTrainingLineFormat (s : String) : Prop :=
  ∃ (epoch : ℕ) (loss auc : ℚ),
    s = "Epoch " ++ fmt03d epoch ++ ": Training loss: " ++ fmt3f loss ++
      ", ROC AUC: " ++ fmt3pct auc

/-- Modelled from the spec: the analogous validation line in the same
fixed format, `"Epoch NNN: Validation loss: X.XXX, ROC AUC: Y.YYY%"`,
that the specification asserts for the per-epoch validation report
line. -/
def specValidationLineFormat (s : String) : Prop :=
  ∃ (epoch : ℕ) (loss auc : ℚ),
    s = "Epoch " ++ fmt03d epoch ++ ": Validation loss: " ++ fmt3f loss ++
      ", ROC AUC: " ++ fmt3pct auc

end Notebook

/-! ## Helper lemmas -/

open Notebook

namespace Notebook

variable {α : Type}

theorem pad_sequences_length (maxlen : ℕ) (s : List ℕ) :
    (pad_sequences maxlen s).length = maxlen := by
  simp only [pad_sequences, List.length_append, List.length_replicate,
    List.length_take]
  omega

theorem pad_sequences_of_length_eq (maxlen : ℕ) (s : List ℕ)
    (h : s.length = maxlen) : pad_sequences maxlen s = s := by
  simp [pad_sequences, List.take_of_length_le h.le, h]

theorem mean_foldl_updateBatch_total [DivisionRing α]
    (groups : List (List α)) (s : Mean α) :
    (groups.foldl Mean.updateBatch s).total = s.total + groups.flatten.sum := by
  induction groups generalizing s with
  | nil => simp
  | cons g gs ih => simp [ih, Mean.updateBatch, add_assoc]

theorem mean_foldl_updateBatch_count [DivisionRing α]
    (groups : List (List α)) (s : Mean α) :
    (groups.foldl Mean.updateBatch s).count
      = s.count + (groups.flatten.length : α) := by
  induction groups generalizing s with
  | nil => simp
  | cons g gs ih =>
    simp [ih, Mean.updateBatch, add_assoc, Nat.cast_add]

theorem mean_foldl_updateVal_eq_updateBatch [DivisionRing α]
    (vs : List α) (s : Mean α) :
    vs.foldl Mean.updateVal s = Mean.updateBatch s vs := by
  induction vs generalizing s with
  | nil => simp [Mean.updateBatch]
  | cons v vs ih =>
    simp only [List.foldl_cons, ih, Mean.updateVal, Mean.updateBatch,
      List.sum_cons, List.length_cons, Mean.mk.injEq]
    constructor
    · abel
    · push_cast
      abel

theorem mean_result_updateBatch_init [DivisionRing α] (vs : List α) :
    (Mean.updateBatch (Mean.init : Mean α) vs).result
      = vs.sum / (vs.length : α) := by
  simp [Mean.updateBatch, Mean.init, Mean.result]

namespace AUC

variable [LinearOrderedField α]

theorem threshold_lt_one {i : ℕ} (hi : i < numThresholds - 1) :
    (threshold i : α) < 1 := by
  unfold threshold numThresholds at *
  split_ifs with h0 hlast
  · have : (0 : α) < kEpsilon := by norm_num [kEpsilon]
    linarith
  · omega
  · rw [div_lt_one (by norm_num)]
    push_cast
    norm_num
    omega

theorem threshold_last_not_lt_one : ¬(threshold (numThresholds - 1) : α) < 1 := by
  unfold threshold numThresholds
  norm_num [kEpsilon]

theorem threshold_zero_neg : (threshold 0 : α) < 0 := by
  norm_num [threshold, kEpsilon]

theorem threshold_not_neg {i : ℕ} (h : i ≠ 0) : ¬(threshold i : α) < 0 := by
  unfold threshold
  rw [not_lt]
  split_ifs with h0 hlast
  · exact absurd h0 h
  · have : (0 : α) < kEpsilon := by norm_num [kEpsilon]
    linarith
  · exact div_nonneg (Nat.cast_nonneg i) (by norm_num [numThresholds])

/-- Closed form of the confusion counts after accumulating a batch of
one-hot entries whose predictions equal their labels: at each threshold,
all positives are predicted positive exactly when the threshold is below
`1`, and all negatives are predicted positive exactly when the threshold
is below `0`. -/
theorem update_closed (pairs : List (α × α))
    (h : ∀ yp ∈ pairs, yp.2 = yp.1 ∧ (yp.1 = 0 ∨ yp.1 = 1)) (s : AUC α) :
    update s pairs =
      { true_positives := fun i => s.true_positives i +
          if (threshold i : α) < 1 then (posCount pairs : α) else 0,
        false_positives := fun i => s.false_positives i +
          if (threshold i : α) < 0 then (negCount pairs : α) else 0,
        true_negatives := fun i => s.true_negatives i +
          if (threshold i : α) < 0 then 0 else (negCount pairs : α),
        false_negatives := fun i => s.false_negatives i +
          if (threshold i : α) < 1 then 0 else (posCount pairs : α) } := by
  induction pairs generalizing s with
  | nil =>
    ext i <;> simp [update, posCount, negCount]
  | cons yp rest ih =>
    obtain ⟨hp, hy⟩ := h yp (List.mem_cons_self yp rest)
    have hrest : ∀ z ∈ rest, z.2 = z.1 ∧ (z.1 = 0 ∨ z.1 = 1) :=
      fun z hz => h z (List.mem_cons_of_mem yp hz)
    have hstep : update s (yp :: rest) = update (updateEntry s yp.1 yp.2) rest :=
      rfl
    rw [hstep, ih hrest]
    rcases hy with h0 | h1
    · ext i <;>
        (simp [updateEntry, hp, h0, posCount, negCount, List.countP_cons] <;>
         split_ifs <;> first | (push_cast; ring1) | linarith)
    · ext i <;>
        (simp [updateEntry, hp, h1, posCount, negCount, List.countP_cons] <;>
         split_ifs <;> first | (push_cast; ring1) | linarith)

/-- The ROC-AUC of the confusion profile left by a perfectly separated
batch with `P > 0` positives (all scored `1`) and `N > 0` negatives (all
scored `0`): the curve jumps from `(1,1)` to `(0,1)` at the first
threshold and the trapezoidal sum is exactly `1`. -/
theorem result_of_separated {P N : α} (hP : 0 < P) (hN : 0 < N) :
    result (AUC.mk
      (fun i => if (threshold i : α) < 1 then P else 0)
      (fun i => if (threshold i : α) < 0 then N else 0)
      (fun i => if (threshold i : α) < 0 then 0 else N)
      (fun i => if (threshold i : α) < 1 then 0 else P)) = 1 := by
  have hrec : ∀ i : ℕ, i < numThresholds - 1 →
      (if (threshold i : α) < 1 then P else 0) /
        ((if (threshold i : α) < 1 then P else 0) +
          (if (threshold i : α) < 1 then 0 else P)) = 1 := by
    intro i hi
    simp [threshold_lt_one hi, hP.ne']
  have hfpr0 :
      (if (threshold 0 : α) < 0 then N else 0) /
        ((if (threshold 0 : α) < 0 then N else 0) +
          (if (threshold 0 : α) < 0 then 0 else N)) = 1 := by
    simp [threshold_zero_neg, hN.ne']
  have hfprS : ∀ i : ℕ, i ≠ 0 →
      (if (threshold i : α) < 0 then N else 0) /
        ((if (threshold i : α) < 0 then N else 0) +
          (if (threshold i : α) < 0 then 0 else N)) = 0 := by
    intro i hi
    simp [threshold_not_neg hi]
  unfold result
  dsimp only
  rw [Finset.sum_eq_single_of_mem 0 (by norm_num [numThresholds])]
  · rw [hfpr0, hfprS 1 one_ne_zero, hrec 0 (by norm_num [numThresholds]),
      hrec 1 (by norm_num [numThresholds])]
    norm_num
  · intro b _ hb
    rw [hfprS b hb, hfprS (b + 1) (Nat.succ_ne_zero b)]
    simp

end AUC

end Notebook

/-! ## Claim theorems for preprocessing and the mean accumulator -/

/-- C8: the pad-then-truncate preprocessing step is idempotent with respect
to the fixed length 100: applied to a sequence that already has exactly
length 100 it returns that sequence unchanged, and applying it twice gives
the same result as applying it once. -/
theorem c8_pad_sequences_idempotent (s : List ℕ) :
    (s.length = 100 → pad_sequences 100 s = s) ∧
    pad_sequences 100 (pad_sequences 100 s) = pad_sequences 100 s :=
  ⟨pad_sequences_of_length_eq 100 s,
   pad_sequences_of_length_eq 100 _ (pad_sequences_length 100 s)⟩

/-- Witness for C8 at concrete inputs. -/
theorem c8_pad_sequences_idempotent_witness :
    pad_sequences 100 (List.replicate 100 2) = List.replicate 100 2 ∧
    pad_sequences 100 (pad_sequences 100 [1, 2, 3]) =
      pad_sequences 100 [1, 2, 3] :=
  ⟨(c8_pad_sequences_idempotent (List.replicate 100 2)).1 (by simp),
   (c8_pad_sequences_idempotent [1, 2, 3]).2⟩

/-- C10: every output row of the padding step has length exactly 100;
a shorter input is pre-padded with the pad token 0, and a longer input
keeps its first 100 tokens. -/
theorem c10_pad_sequences_shape (s : List ℕ) :
    (pad_sequences 100 s).length = 100 ∧
    (s.length < 100 →
      pad_sequences 100 s = List.replicate (100 - s.length) 0 ++ s) ∧
    (100 < s.length → pad_sequences 100 s = s.take 100) := by
  refine ⟨pad_sequences_length 100 s, fun h => ?_, fun h => ?_⟩
  · simp [pad_sequences, List.take_of_length_le h.le]
  · simp [pad_sequences, List.length_take, Nat.min_eq_left h.le]

/-- Witness for C10 at concrete short and long inputs. -/
theorem c10_pad_sequences_shape_witness :
    (pad_sequences 100 [5, 6]).length = 100 ∧
    pad_sequences 100 [5, 6] = List.replicate 98 0 ++ [5, 6] ∧
    pad_sequences 100 (List.replicate 101 7) =
      (List.replicate 101 7).take 100 := by
  refine ⟨(c10_pad_sequences_shape [5, 6]).1, ?_,
    (c10_pad_sequences_shape (List.replicate 101 7)).2.2 (by simp)⟩
  simpa using (c10_pad_sequences_shape [5, 6]).2.1 (by simp)

/-- C4: the running mean-loss accumulator over the values `[a, b, c]`
yields `(a + b + c) / 3`, and the result is the same for every way of
grouping those values into batches before accumulation. -/
theorem c4_mean_grouping (a b c : ℚ) (groups : List (List ℚ))
    (h : groups.flatten = [a, b, c]) :
    ([a, b, c].foldl Mean.updateVal Mean.init).result = (a + b + c) / 3 ∧
    (groups.foldl Mean.updateBatch Mean.init).result = (a + b + c) / 3 := by
  constructor
  · rw [mean_foldl_updateVal_eq_updateBatch, mean_result_updateBatch_init]
    norm_num [add_assoc]
  · rw [Mean.result, mean_foldl_updateBatch_total, mean_foldl_updateBatch_count,
      h]
    norm_num [Mean.init, add_assoc]

/-- Witness for C4: the grouping `[[1], [2, 3]]` of `[1, 2, 3]`. -/
theorem c4_mean_grouping_witness :
    ([(1 : ℚ), 2, 3].foldl Mean.updateVal Mean.init).result = (1 + 2 + 3) / 3 ∧
    ([[(1 : ℚ)], [2, 3]].foldl Mean.updateBatch Mean.init).result =
      (1 + 2 + 3) / 3 :=
  c4_mean_grouping 1 2 3 [[1], [2, 3]] (by decide)

/-- C7: accumulating a perfectly-separable batch of one-hot label/
prediction pairs (every prediction equal to its 0/1 label, with at least
one positive and one negative entry) into the ROC-AUC metric yields a
result of exactly 1. -/
theorem c7_auc_separable (pairs : List (ℚ × ℚ))
    (hoh : ∀ yp ∈ pairs, yp.2 = yp.1 ∧ (yp.1 = 0 ∨ yp.1 = 1))
    (hpos : ∃ yp ∈ pairs, yp.1 ≠ 0)
    (hneg : ∃ yp ∈ pairs, yp.1 = 0) :
    (AUC.update AUC.init pairs).result = 1 := by
  have hP : 0 < AUC.posCount pairs := by
    rw [AUC.posCount, List.countP_pos]
    obtain ⟨yp, hm, hy⟩ := hpos
    exact ⟨yp, hm, by simpa using hy⟩
  have hN : 0 < AUC.negCount pairs := by
    rw [AUC.negCount, List.countP_pos]
    obtain ⟨yp, hm, hy⟩ := hneg
    exact ⟨yp, hm, by simpa using hy⟩
  have hstate : AUC.update (AUC.init : AUC ℚ) pairs = AUC.mk
      (fun i => if (AUC.threshold i : ℚ) < 1 then (AUC.posCount pairs : ℚ) else 0)
      (fun i => if (AUC.threshold i : ℚ) < 0 then (AUC.negCount pairs : ℚ) else 0)
      (fun i => if (AUC.threshold i : ℚ) < 0 then 0 else (AUC.negCount pairs : ℚ))
      (fun i => if (AUC.threshold i : ℚ) < 1 then 0 else (AUC.posCount pairs : ℚ)) := by
    rw [AUC.update_closed pairs hoh]
    ext i <;> simp [AUC.init]
  rw [hstate]
  exact AUC.result_of_separated (by exact_mod_cast hP) (by exact_mod_cast hN)

/-- Witness for C7: the two-entry batch `[(1, 1), (0, 0)]`. -/
theorem c7_auc_separable_witness :
    (AUC.update AUC.init [((1 : ℚ), 1), (0, 0)]).result = 1 :=
  c7_auc_separable [(1, 1), (0, 0)] (by decide) (by decide) (by decide)

/-- C6: for a batch of 2 samples with labels `[0, 1]` and a model
returning the uniform distribution over 46 classes, each per-sample
sparse categorical cross-entropy equals `-ln(1/46)`, the batch loss
equals `-ln(1/46)`, and the mean-loss accumulator fed that batch loss
reports the same value. -/
theorem c6_uniform_loss :
    scceSample uniform46 0 = -Real.log (1 / 46) ∧
    scceSample uniform46 1 = -Real.log (1 / 46) ∧
    scceLoss [0, 1] [uniform46, uniform46] = -Real.log (1 / 46) ∧
    (Mean.updateVal Mean.init (scceLoss [0, 1] [uniform46, uniform46])).result
      = -Real.log (1 / 46) := by
  have hget : ∀ i : ℕ, i < 46 → uniform46.getD i 0 = 1 / 46 := by
    intro i hi
    show (List.replicate 46 ((1 : ℝ) / 46)).getD i 0 = 1 / 46
    rw [List.getD_eq_getElem?_getD, List.getElem?_replicate, if_pos hi]
    rfl
  have hs0 : scceSample uniform46 0 = -Real.log (1 / 46) := by
    rw [scceSample, hget 0 (by norm_num)]
  have hs1 : scceSample uniform46 1 = -Real.log (1 / 46) := by
    rw [scceSample, hget 1 (by norm_num)]
  have hloss : scceLoss [0, 1] [uniform46, uniform46] = -Real.log (1 / 46) := by
    rw [scceLoss]
    simp only [List.zip_cons_cons, List.zip_nil_right, List.map_cons,
      List.map_nil, List.sum_cons, List.sum_nil, List.length_cons,
      List.length_nil, hs0, hs1]
    push_cast
    ring
  refine ⟨hs0, hs1, hloss, ?_⟩
  rw [hloss]
  simp [Mean.updateVal, Mean.init, Mean.result]

/-- For any context, folding the validation-loop body over any batch list
leaves the optimizer state (parameters and momenta) and the two training
metric accumulators untouched. -/
theorem valBatchStep_fold_frame {α I T O : Type} [LinearOrderedField α]
    (C : TrainContext α I T O) :
    ∀ (bs : List (I × T)) (s : SGDState α × EpochAccs α),
      (bs.foldl (valBatchStep C) s).1 = s.1 ∧
      (bs.foldl (valBatchStep C) s).2.train_epoch_loss_avg =
        s.2.train_epoch_loss_avg ∧
      (bs.foldl (valBatchStep C) s).2.train_epoch_roc_auc =
        s.2.train_epoch_roc_auc := by
  intro bs
  induction bs with
  | nil => exact fun s => ⟨rfl, rfl, rfl⟩
  | cons b bs ih =>
    intro s
    obtain ⟨h1, h2, h3⟩ := ih (valBatchStep C s b)
    obtain ⟨b1, b2⟩ := b
    exact ⟨h1.trans rfl, h2.trans rfl, h3.trans rfl⟩

/-- C1: `grad` returns exactly the triple of (a) the model's predictions
on the batch, (b) the scalar loss of those predictions against the
labels, and (c) the gradient of that loss, as a function of the trainable
parameters, evaluated at the current parameters. -/
theorem c1_grad_triple {α I T O : Type} [LinearOrderedField α]
    (C : TrainContext α I T O) (θ : Params α) (inputs : I) (targets : T) :
    grad C θ inputs targets =
      (C.forward θ inputs,
       C.lossFn targets (C.forward θ inputs),
       C.gradient (fun p => C.lossFn targets (C.forward p inputs)) θ) := rfl

/-- C2: `grad` leaves the model's variable store unchanged; in the
training loop the parameters change only when the caller applies the
returned gradients through the fixed SGD-with-(Nesterov-)momentum update
with `learning_rate = 0.005` and `momentum = 0.9`. -/
theorem c2_grad_no_side_effect {α I T O : Type} [LinearOrderedField α]
    (C : TrainContext α I T O) (θ : Params α) (inputs : I) (targets : T)
    (s : SGDState α × EpochAccs α) (batch : I × T) :
    (gradS C θ inputs targets).1 = θ ∧
    (gradS C θ inputs targets).2 = grad C θ inputs targets ∧
    (trainBatchStep C s batch).1 =
      applyGradients learning_rate momentum s.1
        (grad C s.1.params batch.1 batch.2).2.2 ∧
    (∀ (lr mom : α) (st : SGDState α) (g : Params α) (i : ℕ),
      (applyGradients lr mom st g).params i =
        st.params i + mom * (mom * st.momenta i - lr * g i) - lr * g i ∧
      (applyGradients lr mom st g).momenta i =
        mom * st.momenta i - lr * g i) ∧
    (learning_rate : α) = 5 / 1000 ∧ (momentum : α) = 9 / 10 := by
  obtain ⟨b1, b2⟩ := batch
  exact ⟨rfl, rfl, rfl, fun lr mom st g i => ⟨rfl, rfl⟩, rfl, rfl⟩

/-- C3: the validation phase of an epoch processes only the prefix of at
most `val_steps` validation batches, leaves the optimizer state (all model
parameters and momenta) unchanged, and leaves the training metric
accumulators unchanged — only the validation metric accumulators move. -/
theorem c3_validation_frame {α I T O : Type} [LinearOrderedField α]
    (C : TrainContext α I T O) (s : SGDState α × EpochAccs α)
    (batches : List (I × T)) :
    (valPhase C s batches).1 = s.1 ∧
    (valPhase C s batches).2.train_epoch_loss_avg = s.2.train_epoch_loss_avg ∧
    (valPhase C s batches).2.train_epoch_roc_auc = s.2.train_epoch_roc_auc ∧
    valPhase C s batches = valPhase C s (batches.take val_steps) ∧
    (batches.take val_steps).length ≤ val_steps := by
  have hframe := valBatchStep_fold_frame C (batches.take val_steps) s
  refine ⟨hframe.1, hframe.2.1, hframe.2.2, ?_, List.length_take_le _ _⟩
  unfold valPhase
  rw [List.take_take, min_self]

/-- C5 counterexample: at the end of an epoch, the training mean-loss
accumulator's aggregate `result()` is read twice — once for the
result-list append and once inside the printed report — not exactly
once. -/
theorem c5_read_twice_counterexample :
    epochEndReads.count MetricId.train_epoch_loss_avg ≠ 1 := by decide

/-- C5 (amended): every metric accumulator is created afresh (from the
initial empty state) at the start of each epoch and discarded at its end:
each epoch's reported quadruple is computed by `epochStep` from the
incoming optimizer state alone, with all four accumulators starting at
`init`, and no metric state flows from one epoch into the next.  At epoch
end each accumulator's aggregate is read twice: once appended to the
result lists and once in the printed report. -/
theorem c5_metrics_fresh_per_epoch {α I T O : Type} [LinearOrderedField α]
    (C : TrainContext α I T O) (trainBatches valBatches : List (I × T))
    (s : SGDState α) (n : ℕ) :
    (runEpochs C trainBatches valBatches s (n + 1)).2 =
      (epochStep C trainBatches valBatches s).2 ::
        (runEpochs C trainBatches valBatches
          (epochStep C trainBatches valBatches s).1 n).2 ∧
    (epochStep C trainBatches valBatches s).2 =
      (let s2 := valPhase C
          (trainPhase C (s, ⟨Mean.init, AUC.init, Mean.init, AUC.init⟩)
            trainBatches) valBatches
       (s2.2.train_epoch_loss_avg.result, s2.2.train_epoch_roc_auc.result,
        s2.2.val_epoch_loss_avg.result, s2.2.val_epoch_roc_auc.result)) ∧
    (∀ m : MetricId, epochEndReads.count m = 2) := by
  refine ⟨?_, rfl, fun m => by cases m <;> rfl⟩
  rcases h : runEpochs C trainBatches valBatches
    (epochStep C trainBatches valBatches s).1 n with ⟨s2, rs⟩
  simp only [epochStep] at h
  simp only [runEpochs, epochStep, h]

/-- C9 counterexample: the validation report line does not have the fixed
format asserted for it (an `"Epoch NNN: "` prefix and a colon after
`"ROC AUC"`): its first character is a space, not `'E'`. -/
theorem c9_validation_line_counterexample :
    ¬specValidationLineFormat (validationReportLine 2 (9 / 10)) := by
  rintro ⟨e, l, a, h⟩
  have hd := congrArg (fun t : String => t.data.head?) h
  simp only [validationReportLine, specValidationLineFormat,
    String.data_append, List.head?_append, List.head?_cons,
    Option.or] at hd
  exact absurd hd (by decide)

/-- C9 (amended): each epoch prints a training line in the fixed format
`"Epoch NNN: Training loss: X.XXX, ROC AUC: Y.YYY%"`, followed by a
validation line consisting of fourteen spaces and
`"Validation loss: X.XXX, ROC AUC Y.YYY%"` — without the epoch prefix
and without a colon after `"ROC AUC"`. -/
theorem c9_report_line_formats (e : ℕ) (l a : ℚ) :
    specTrainingLineFormat (trainingReportLine e l a) ∧
    validationReportLine l a =
      "              " ++ ("Validation loss: " ++ fmt3f l ++ ", ROC AUC " ++
        fmt3pct a) := by
  refine ⟨⟨e, l, a, rfl⟩, ?_⟩
  have : ("              Validation loss: " : String) =
      "              " ++ "Validation loss: " := by decide
  rw [validationReportLine, this]
  simp only [String.append_assoc]
